import Mathlib

/-!
Verification of the transaction-categorization core of the auto-finance
application (src/main.py) against its natural-language specification.

The Python source is shallowly embedded below.  Python strings are Lean
`String`s (backed by `List Char`); `str.strip`, `str.lower` and
`str.replace(",", "")` are modelled character-by-character for the ASCII
range that the application's data uses.  A pandas `DataFrame` is a column
header plus a list of rows of typed cells; `pd.read_csv`'s dtype inference
(a column every entry of which parses as a number becomes numeric,
otherwise it stays a column of strings) is modelled in `read_csv`.
Exceptions (`KeyError` from a missing column or missing dict key,
`AttributeError` from `.str` on a numeric column or `.lower()` on a
non-string, `ValueError` from `astype(float)` / `to_datetime`) are
modelled with `Option`/`Except`: the `try/except` in `load_transactions`
maps any such failure to `none` (the `st.error` path), while exceptions
raised outside that `try` surface as `.error` (an uncaught crash).
Amounts are exact rationals, the model of the decimal values the program
manipulates.
-/

namespace AutoFinance

/-- Python `str.strip` whitespace set restricted to ASCII. -/
def pySpace (c : Char) : Bool :=
  (c == ' ') || (c == '\t') || (c == '\n') || (c == '\r') || (c == '\x0b') || (c == '\x0c')

/-- Python `str.strip()`: drop leading and trailing whitespace. -/
def pyStrip (s : String) : String :=
  String.mk (((s.data.dropWhile pySpace).reverse.dropWhile pySpace).reverse)

/-- Python `str.lower()` on one character (ASCII range). -/
def charLower (c : Char) : Char :=
  if 'A' ≤ c ∧ c ≤ 'Z' then Char.ofNat (c.toNat + 32) else c

/-- Python `str.lower()` (ASCII range). -/
def pyLower (s : String) : String :=
  String.mk (s.data.map charLower)

/-- The normalization `x.lower().strip()` applied by `categories_transactions`
to keywords and to the `Details` field. -/
def lowerStrip (s : String) : String :=
  pyStrip (pyLower s)

/-- Python `str.replace(",", "")`: remove every comma. -/
def removeCommas (s : String) : String :=
  String.mk (s.data.filter (fun c => c != ','))

/-- Numeric value of a digit string (most significant first). -/
def digitsVal (cs : List Char) : Nat :=
  cs.foldl (fun n c => n * 10 + (c.toNat - 48)) 0

/-- Unsigned decimal literal: digits with an optional single decimal point,
at least one digit overall.  `none` models `ValueError`. -/
def parseDecimalChars (cs : List Char) : Option ℚ :=
  let ip := cs.takeWhile (fun c => c != '.')
  match cs.dropWhile (fun c => c != '.') with
  | [] =>
    if ip ≠ [] ∧ ip.all Char.isDigit then some ((digitsVal ip : ℚ)) else none
  | _ :: fp =>
    if (ip ≠ [] ∨ fp ≠ []) ∧ ip.all Char.isDigit ∧ fp.all Char.isDigit then
      some ((digitsVal ip : ℚ) + (digitsVal fp : ℚ) / (10 : ℚ) ^ fp.length)
    else none

/-- Python `float(s)` on the decimal literals the application handles
(optional surrounding whitespace, optional sign, digits, optional decimal
point).  This is also the numeric test `pd.read_csv` applies when deciding
whether a column is ingested with a numeric dtype. -/
def parsePyFloat (s : String) : Option ℚ :=
  match (pyStrip s).data with
  | '-' :: cs => (parseDecimalChars cs).map Neg.neg
  | '+' :: cs => parseDecimalChars cs
  | cs => parseDecimalChars cs

/-- Abbreviated month name of the `%b` directive (case-insensitive). -/
def month3 (s : String) : Option Nat :=
  match pyLower s with
  | "jan" => some 1
  | "feb" => some 2
  | "mar" => some 3
  | "apr" => some 4
  | "may" => some 5
  | "jun" => some 6
  | "jul" => some 7
  | "aug" => some 8
  | "sep" => some 9
  | "oct" => some 10
  | "nov" => some 11
  | "dec" => some 12
  | _ => none

def isLeap (y : Nat) : Bool :=
  (y % 4 == 0 && y % 100 != 0) || (y % 400 == 0)

def daysInMonth (m y : Nat) : Nat :=
  if m = 2 then (if isLeap y then 29 else 28)
  else if m = 4 ∨ m = 6 ∨ m = 9 ∨ m = 11 then 30
  else 31

/-- Split a character list on a separator character. -/
def splitChar (sep : Char) : List Char → List (List Char)
  | [] => [[]]
  | c :: cs =>
    let r := splitChar sep cs
    if c = sep then [] :: r
    else
      match r with
      | [] => [[c]]
      | t :: ts => (c :: t) :: ts

/-- `pd.to_datetime(_, format="%d %b %Y")` on one cell: a one-or-two digit
day, an abbreviated month name and a four digit year separated by single
spaces, checked against the calendar.  Returns (year, month, day). -/
def parseDate (s : String) : Option (Nat × Nat × Nat) :=
  match splitChar ' ' s.data with
  | [d, m, y] =>
    if d ≠ [] ∧ d.length ≤ 2 ∧ d.all Char.isDigit ∧ y.length = 4 ∧ y.all Char.isDigit then
      match month3 (String.mk m) with
      | none => none
      | some mo =>
        let day := digitsVal d
        if 1 ≤ day ∧ day ≤ daysInMonth mo (digitsVal y) then
          some (digitsVal y, mo, day)
        else none
    else none
  | _ => none

/-- One cell of a DataFrame: pandas object (string), numeric, or datetime. -/
inductive Cell where
  | str (s : String)
  | num (q : ℚ)
  | date (y m d : Nat)
  deriving DecidableEq, Repr

/-- Raw tabular input as uploaded: a header line and string-valued rows. -/
structure RawTable where
  header : List String
  rows : List (List String)
  deriving DecidableEq, Repr

/-- A pandas DataFrame: named columns and typed rows (row-major). -/
structure DataFrame where
  cols : List String
  rows : List (List Cell)
  deriving DecidableEq, Repr

/-- Index of the first column with the given name (`None` models the
`KeyError` a lookup of a missing column raises). -/
def colIdx? (cols : List String) (name : String) : Option Nat :=
  match cols with
  | [] => none
  | c :: rest => if c = name then some 0 else (colIdx? rest name).map (· + 1)

/-- `df[name]` as a list of cells. -/
def getColumn (df : DataFrame) (name : String) : Option (List Cell) :=
  match colIdx? df.cols name with
  | none => none
  | some j => some (df.rows.map (fun r => r.getD j (Cell.str "")))

/-- `df[name] = cells`: replace the column when it exists, otherwise append
a new column on the right (pandas column assignment). -/
def setColumn (df : DataFrame) (name : String) (cells : List Cell) : DataFrame :=
  match colIdx? df.cols name with
  | some j => ⟨df.cols, List.zipWith (fun r c => r.set j c) df.rows cells⟩
  | none => ⟨df.cols ++ [name], List.zipWith (fun r c => r ++ [c]) df.rows cells⟩

/-- `df.at[idx, name]` read access. -/
def getAt (df : DataFrame) (idx : Nat) (name : String) : Option Cell :=
  match colIdx? df.cols name with
  | none => none
  | some j =>
    match df.rows.get? idx with
    | none => none
    | some r => r.get? j

/-- `df.at[idx, name] = c` write access (the application only writes to
existing rows of existing columns). -/
def setAt (df : DataFrame) (idx : Nat) (name : String) (c : Cell) : DataFrame :=
  match colIdx? df.cols name with
  | none => df
  | some j => ⟨df.cols, df.rows.set idx ((df.rows.getD idx []).set j c)⟩

/-- The category → keyword-list mapping `st.session_state.categories`
(a Python dict in insertion order). -/
abbrev Store := List (String × List String)

/-- The rule store together with its persisted form (`categories.json`):
`save_categories` overwrites the file with the current mapping. -/
structure RuleState where
  categories : Store
  persisted : Option Store
  deriving DecidableEq, Repr

/-- Module initialization (src/main.py lines 11-18): the mapping defaults
to `{"Uncategorized": []}` and is replaced wholesale by the persisted file
when one exists. -/
def initState (persisted : Option Store) : RuleState :=
  match persisted with
  | none => ⟨[("Uncategorized", [])], none⟩
  | some s => ⟨s, some s⟩

/-- In-place update of the value stored under a key (Python
`categories[category].append(...)` mutates the list held by the dict,
keeping the key's position). -/
def storeUpdate (s : Store) (k : String) (v : List String) : Store :=
  s.map (fun p => if p.1 = k then (p.1, v) else p)

/-- `add_keyword_to_category` (src/main.py lines 52-58).  `keyword` is
stripped; an empty result short-circuits the Python `and` to `False`
before the dict is indexed, while a non-empty keyword indexes
`categories[category]`, raising `KeyError` (`.error`) when the category
is absent.  On success the keyword is appended and `save_categories()`
runs. -/
def add_keyword_to_category (rs : RuleState) (category keyword : String) :
    Except Unit (RuleState × Bool) :=
  let kw := pyStrip keyword
  if kw = "" then .ok (rs, false)
  else
    match List.lookup category rs.categories with
    | none => .error ()
    | some kws =>
      if kw ∈ kws then .ok (rs, false)
      else
        let s := storeUpdate rs.categories category (kws ++ [kw])
        .ok (⟨s, some s⟩, true)

/-- The Add-Category handler (src/main.py lines 99-103): a non-empty name
not already a key is added with an empty keyword list and the mapping is
saved; otherwise nothing happens. -/
def add_category (rs : RuleState) (name : String) : RuleState :=
  if name = "" then rs
  else if rs.categories.any (fun p => p.1 == name) then rs
  else
    let s := rs.categories ++ [(name, [])]
    ⟨s, some s⟩

/-- The `.lower().strip()`-normalized keyword list of one category. -/
def loweredKeywords (keywords : List String) : List String :=
  keywords.map lowerStrip

/-- One row of the inner loop of `categories_transactions` for one
category: read `row["Details"]` (`KeyError` when the column is missing,
`AttributeError` from `.lower()` on a non-string) and overwrite
`df.at[idx, "Category"]` when the normalized details equals one of the
category's normalized keywords. -/
def rowClassify (cols : List String) (category : String) (lowered : List String)
    (row : List Cell) : Except Unit (List Cell) :=
  match colIdx? cols "Details" with
  | none => .error ()
  | some di =>
    match row.get? di with
    | some (Cell.str s) =>
      if lowered.contains (lowerStrip s) then
        match colIdx? cols "Category" with
        | none => .error ()
        | some ci => .ok (row.set ci (Cell.str category))
      else .ok row
    | _ => .error ()

/-- All-rows traversal of one category pass; the first raised exception
aborts the whole call. -/
def rowsClassify (cols : List String) (category : String) (lowered : List String) :
    List (List Cell) → Except Unit (List (List Cell))
  | [] => .ok []
  | r :: rest =>
    match rowClassify cols category lowered r with
    | .error e => .error e
    | .ok r' =>
      match rowsClassify cols category lowered rest with
      | .error e => .error e
      | .ok rest' => .ok (r' :: rest')

/-- The outer loop of `categories_transactions` over the mapping in
insertion order, skipping `"Uncategorized"` and categories with no
keywords. -/
def classifyFold : Store → DataFrame → Except Unit DataFrame
  | [], df => .ok df
  | c :: rest, df =>
    if c.1 = "Uncategorized" ∨ c.2 = [] then classifyFold rest df
    else
      match rowsClassify df.cols c.1 (loweredKeywords c.2) df.rows with
      | .error e => .error e
      | .ok rows' => classifyFold rest ⟨df.cols, rows'⟩

/-- `categories_transactions` (src/main.py lines 24-37): stamp every row
`"Uncategorized"`, then let each matching category overwrite the
`Category` field in mapping iteration order. -/
def categories_transactions (cats : Store) (df : DataFrame) : Except Unit DataFrame :=
  classifyFold cats
    (setColumn df "Category" (df.rows.map (fun _ => Cell.str "Uncategorized")))

/-- Does `pd.read_csv` ingest column `j` with a numeric dtype?  It does
when there is at least one row and every entry parses as a number. -/
def colIsNumeric (t : RawTable) (j : Nat) : Bool :=
  !t.rows.isEmpty && t.rows.all (fun r => (parsePyFloat (r.getD j "")).isSome)

/-- `pd.read_csv(file)`: type each column by inference, keeping the header
as written. -/
def read_csv (t : RawTable) : DataFrame :=
  ⟨t.header,
   t.rows.map (fun r =>
     (List.range t.header.length).map (fun j =>
       if colIsNumeric t j then Cell.num ((parsePyFloat (r.getD j "")).getD 0)
       else Cell.str (r.getD j "")))⟩

/-- `.str` accessor on one cell: only a string survives. -/
def cellStr? : Cell → Option String
  | Cell.str s => some s
  | _ => none

/-- `pd.to_datetime(_, format="%d %b %Y")` on one cell. -/
def cellDate? : Cell → Option (Nat × Nat × Nat)
  | Cell.str s => parseDate s
  | _ => none

/-- All-or-nothing traversal (the first exception aborts). -/
def optMapM {α β : Type} (f : α → Option β) : List α → Option (List β)
  | [] => some []
  | a :: l =>
    match f a with
    | none => none
    | some b =>
      match optMapM f l with
      | none => none
      | some bs => some (b :: bs)

/-- `load_transactions` (src/main.py lines 39-50): read the CSV, strip the
column names, strip commas from the `Amount` column and convert it to
float, parse the `Date` column with the fixed format, then classify.  Any
exception is caught, reported with `st.error`, and `None` is returned. -/
def load_transactions (cats : Store) (t : RawTable) : Option DataFrame :=
  let df0 := read_csv t
  let df1 : DataFrame := ⟨df0.cols.map pyStrip, df0.rows⟩
  match getColumn df1 "Amount" with
  | none => none
  | some amountCells =>
    match optMapM cellStr? amountCells with
    | none => none
    | some strs =>
      match optMapM (fun s => parsePyFloat (removeCommas s)) strs with
      | none => none
      | some qs =>
        let df2 := setColumn df1 "Amount" (qs.map Cell.num)
        match getColumn df2 "Date" with
        | none => none
        | some dateCells =>
          match optMapM cellDate? dateCells with
          | none => none
          | some ds =>
            let df3 := setColumn df2 "Date" (ds.map (fun p => Cell.date p.1 p.2.1 p.2.2))
            match categories_transactions cats df3 with
            | .error _ => none
            | .ok df4 => some df4

/-- The split `df[df["Debit/Credit"] == "Debit"]` / `== "Credit"`
(src/main.py lines 88-89).  It runs outside any `try`, so a missing
`Debit/Credit` column raises an uncaught `KeyError` (`.error`). -/
def debitCreditSplit (df : DataFrame) : Except Unit (DataFrame × DataFrame) :=
  match colIdx? df.cols "Debit/Credit" with
  | none => .error ()
  | some j =>
    .ok (⟨df.cols, df.rows.filter (fun r => r.getD j (Cell.str "") == Cell.str "Debit")⟩,
         ⟨df.cols, df.rows.filter (fun r => r.getD j (Cell.str "") == Cell.str "Credit")⟩)

/-- The per-session state the upload path touches. -/
structure AppState where
  rules : RuleState
  debits_df : Option DataFrame
  credits_df : Option DataFrame
  deriving DecidableEq, Repr

/-- The upload path of `main` (src/main.py lines 84-92): a failed load is
reported and changes nothing; a successful load is split into debits and
credits, which crashes (uncaught, session state untouched) when the
`Debit/Credit` column is absent. -/
def mainProcess (st : AppState) (t : RawTable) : Except Unit AppState :=
  match load_transactions st.rules.categories t with
  | none => .ok st
  | some df =>
    match debitCreditSplit df with
    | .error e => .error e
    | .ok dc => .ok ⟨st.rules, some dc.1, some dc.2⟩

/-- One row of the Apply-Changes loop (src/main.py lines 123-130): when
the edited category equals the stored one the row is skipped; otherwise
the stored row's category is overwritten and
`add_keyword_to_category(new_category, details)` learns the details
text. -/
def applyRow (rs : RuleState) (debits edited : DataFrame) (idx : Nat) :
    Except Unit (RuleState × DataFrame) :=
  match getAt edited idx "Category", getAt debits idx "Category" with
  | some ne, some cu =>
    if ne = cu then .ok (rs, debits)
    else
      match ne, getAt edited idx "Details" with
      | Cell.str newCat, some (Cell.str det) =>
        let debits' := setAt debits idx "Category" (Cell.str newCat)
        match add_keyword_to_category rs newCat det with
        | .error e => .error e
        | .ok (rs', _) => .ok (rs', debits')
      | _, _ => .error ()
  | _, _ => .error ()

/-- Does one category of the mapping match a details text?  Mirrors the
classifier's test: the category is not `"Uncategorized"` and the
normalized details equals one of its normalized keywords (a category with
no keywords is skipped, and indeed can match nothing). -/
def matchesB (c : String × List String) (s : String) : Bool :=
  (c.1 != "Uncategorized") && (loweredKeywords c.2).contains (lowerStrip s)

/-- The category the classifier's overwrite loop leaves on a row with the
given details, starting from an accumulator. -/
def finalCatFrom (a : String) (cats : Store) (s : String) : String :=
  cats.foldl (fun acc c => if matchesB c s then c.1 else acc) a

/-- The category the classifier assigns to a row with the given details:
the last matching category in insertion order, else `"Uncategorized"`. -/
def finalCat (cats : Store) (s : String) : String :=
  finalCatFrom "Uncategorized" cats s

/-- The `Details` string of a row (used to state the classifier's
characterization; rows feeding it are hypothesized to hold strings). -/
def detStr (r : List Cell) (di : Nat) : String :=
  match r.get? di with
  | some (Cell.str s) => s
  | _ => ""

/-- First-occurrence list of group keys. -/
def uniqueKeys (ks : List String) : List String :=
  ks.foldl (fun acc k => if k ∈ acc then acc else acc ++ [k]) []

/-- Code-point lexicographic comparison of strings (how pandas orders
string group keys). -/
def lexLt : List Char → List Char → Bool
  | [], [] => false
  | [], _ :: _ => true
  | _ :: _, [] => false
  | a :: as, b :: bs =>
    if a.toNat < b.toNat then true
    else if b.toNat < a.toNat then false
    else lexLt as bs

def insertAsc (k : String) : List String → List String
  | [] => [k]
  | x :: xs => if lexLt k.data x.data then k :: x :: xs else x :: insertAsc k xs

/-- Ascending sort of the group keys (`groupby` sorts keys). -/
def sortAsc : List String → List String
  | [] => []
  | k :: ks => insertAsc k (sortAsc ks)

/-- Total amount of the rows carrying one category. -/
def amountSum (txns : List (String × ℚ)) (k : String) : ℚ :=
  ((txns.filter (fun p => p.1 == k)).map Prod.snd).sum

def insertDesc (p : String × ℚ) : List (String × ℚ) → List (String × ℚ)
  | [] => [p]
  | q :: qs => if q.2 ≤ p.2 then p :: q :: qs else q :: insertDesc p qs

/-- Sort by amount, largest first (`sort_values("Amount", ascending=False)`). -/
def sortDesc : List (String × ℚ) → List (String × ℚ)
  | [] => []
  | p :: ps => insertDesc p (sortDesc ps)

/-- The Expense Summary (src/main.py lines 133-134):
`groupby("Category")["Amount"].sum().reset_index()` (group keys ascending)
followed by `sort_values("Amount", ascending=False)`, on the (Category,
Amount) pairs of the rows. -/
def summarize (txns : List (String × ℚ)) : List (String × ℚ) :=
  sortDesc ((sortAsc (uniqueKeys (txns.map Prod.fst))).map (fun k => (k, amountSum txns k)))

/-! ### Helper lemmas about column lookup and row surgery -/

theorem colIdx?_lt {cols : List String} {name : String} {j : Nat}
    (h : colIdx? cols name = some j) : j < cols.length := by
  induction cols generalizing j with
  | nil => simp [colIdx?] at h
  | cons c rest ih =>
    simp only [colIdx?] at h
    by_cases hc : c = name
    · rw [if_pos hc] at h
      obtain rfl := Option.some.inj h
      simp
    · rw [if_neg hc] at h
      simp only [Option.map_eq_some'] at h
      obtain ⟨j', hj', rfl⟩ := h
      have := ih hj'
      simp only [List.length_cons]
      omega

theorem colIdx?_append_left {l₁ l₂ : List String} {name : String} {j : Nat}
    (h : colIdx? l₁ name = some j) : colIdx? (l₁ ++ l₂) name = some j := by
  induction l₁ generalizing j with
  | nil => simp [colIdx?] at h
  | cons c rest ih =>
    simp only [colIdx?, List.cons_append] at h ⊢
    by_cases hc : c = name
    · simpa [hc] using h
    · simp [hc] at h ⊢
      obtain ⟨j', hj', rfl⟩ := h
      exact ⟨j', ih hj', rfl⟩

theorem colIdx?_eq_none {cols : List String} {name : String}
    (h : name ∉ cols) : colIdx? cols name = none := by
  induction cols with
  | nil => rfl
  | cons c rest ih =>
    simp only [List.mem_cons, not_or] at h
    have hc : ¬c = name := fun hcn => h.1 hcn.symm
    simp [colIdx?, hc, ih h.2]

theorem colIdx?_append_of_none {l₁ l₂ : List String} {name : String}
    (h : colIdx? l₁ name = none) :
    colIdx? (l₁ ++ l₂) name = (colIdx? l₂ name).map (· + l₁.length) := by
  induction l₁ with
  | nil => simp [Option.map_id']
  | cons c rest ih =>
    simp only [colIdx?] at h
    by_cases hc : c = name
    · simp [hc] at h
    · rw [if_neg hc] at h
      have h' : colIdx? rest name = none := by
        cases hr : colIdx? rest name
        · rfl
        · rw [hr] at h; simp at h
      show colIdx? (c :: (rest ++ l₂)) name = _
      rw [colIdx?, if_neg hc, ih h']
      cases colIdx? l₂ name with
      | none => rfl
      | some j =>
        simp only [Option.map_some', List.length_cons]
        rw [Nat.add_assoc]

theorem set_append_len {α : Type} (r : List α) (x v : α) :
    (r ++ [x]).set r.length v = r ++ [v] := by
  induction r with
  | nil => rfl
  | cons a as ih => simp [List.set, ih]

theorem get?_append_left {α : Type} {r : List α} (x : α) {di : Nat}
    (h : di < r.length) : (r ++ [x]).get? di = r.get? di :=
  List.get?_append h

/-! ### Characterization of the classifier -/

theorem finalCatFrom_append (a : String) (xs ys : Store) (s : String) :
    finalCatFrom a (xs ++ ys) s = finalCatFrom (finalCatFrom a xs s) ys s :=
  List.foldl_append _ _ _ _

theorem finalCatFrom_no_match {cats : Store} {s : String}
    (h : ∀ c ∈ cats, matchesB c s = false) (a : String) :
    finalCatFrom a cats s = a := by
  induction cats with
  | nil => rfl
  | cons c rest ih =>
    have hc := h c (by simp)
    simp only [finalCatFrom, List.foldl_cons, hc, Bool.false_eq_true, if_false]
    exact ih (fun c' hc' => h c' (by simp [hc']))

theorem finalCat_last_match {l₁ l₂ : Store} {c : String × List String} {s : String}
    (hm : matchesB c s = true) (hl₂ : ∀ c' ∈ l₂, matchesB c' s = false) :
    finalCat (l₁ ++ c :: l₂) s = c.1 := by
  unfold finalCat
  rw [finalCatFrom_append]
  show finalCatFrom _ (c :: l₂) s = c.1
  simp only [finalCatFrom, List.foldl_cons, hm, if_true]
  exact finalCatFrom_no_match hl₂ c.1

theorem matchesB_false_of_skip {c : String × List String} {s : String}
    (h : c.1 = "Uncategorized" ∨ c.2 = []) : matchesB c s = false := by
  rcases h with h | h
  · simp [matchesB, h]
  · simp [matchesB, h, loweredKeywords]

theorem rowsClassify_ok {cols : List String} {category : String} {lowered : List String}
    {base : List (List Cell)} (f g : List Cell → List Cell)
    (h : ∀ r ∈ base, rowClassify cols category lowered (f r) = .ok (g r)) :
    rowsClassify cols category lowered (base.map f) = .ok (base.map g) := by
  induction base with
  | nil => rfl
  | cons r rest ih =>
    simp only [List.map_cons, rowsClassify, h r (by simp),
      ih (fun r' hr' => h r' (by simp [hr']))]

theorem classifyFold_spec (cats : Store) (cols : List String) (base : List (List Cell))
    (di : Nat) (hdi : colIdx? cols "Details" = some di)
    (n : Nat) (hci : colIdx? cols "Category" = some n)
    (hn : ∀ r ∈ base, r.length = n) (hdin : di < n)
    (hstr : ∀ r ∈ base, ∃ s, r.get? di = some (Cell.str s))
    (g : List Cell → String) :
    classifyFold cats ⟨cols, base.map (fun r => r ++ [Cell.str (g r)])⟩ =
      .ok ⟨cols, base.map (fun r => r ++ [Cell.str (finalCatFrom (g r) cats (detStr r di))])⟩ := by
  induction cats generalizing g with
  | nil => simp [classifyFold, finalCatFrom]
  | cons c rest ih =>
    by_cases hskip : c.1 = "Uncategorized" ∨ c.2 = []
    · have hfalse : ∀ s, matchesB c s = false := fun _ => matchesB_false_of_skip hskip
      simp only [classifyFold, hskip, if_true]
      rw [ih g]
      simp only [finalCatFrom, List.foldl_cons, hfalse, Bool.false_eq_true, if_false]
    · have hactive : ¬(c.1 = "Uncategorized" ∨ c.2 = []) := hskip
      simp only [classifyFold, hactive, if_false]
      have hrow : ∀ r ∈ base,
          rowClassify cols c.1 (loweredKeywords c.2) (r ++ [Cell.str (g r)]) =
            .ok (r ++ [Cell.str (if matchesB c (detStr r di) then c.1 else g r)]) := by
        intro r hr
        obtain ⟨s, hs⟩ := hstr r hr
        have hlen : di < r.length := by rw [hn r hr]; exact hdin
        have hget : (r ++ [Cell.str (g r)]).get? di = some (Cell.str s) := by
          rw [get?_append_left _ hlen, hs]
        have hdet : detStr r di = s := by unfold detStr; rw [hs]
        have hm : matchesB c s = ((loweredKeywords c.2).contains (lowerStrip s)) := by
          have h1 : c.1 ≠ "Uncategorized" := fun h => hactive (Or.inl h)
          simp [matchesB, h1]
        simp only [rowClassify, hdi, hget, hdet]
        by_cases hc : (loweredKeywords c.2).contains (lowerStrip s) = true
        · simp only [hc, if_true, hci, hm]
          rw [← hn r hr, set_append_len]
        · simp only [hc, if_false, hm]
          simp [Bool.not_eq_true] at hc
          simp [hc]
      simp only [rowsClassify_ok _ _ hrow]
      rw [ih (fun r => if matchesB c (detStr r di) then c.1 else g r)]
      simp only [finalCatFrom, List.foldl_cons]

/-- The classifier on a well-formed frame (a `Details` column of strings,
no pre-existing `Category` column): it appends a `Category` column holding,
for each row, the last matching category in mapping order, with
`"Uncategorized"` as the baseline. -/
theorem categories_transactions_spec (cats : Store) (df : DataFrame)
    (hcat : "Category" ∉ df.cols)
    (di : Nat) (hdi : colIdx? df.cols "Details" = some di)
    (hrect : ∀ r ∈ df.rows, r.length = df.cols.length)
    (hstr : ∀ r ∈ df.rows, ∃ s, r.get? di = some (Cell.str s)) :
    categories_transactions cats df =
      .ok ⟨df.cols ++ ["Category"],
           df.rows.map (fun r => r ++ [Cell.str (finalCat cats (detStr r di))])⟩ := by
  unfold categories_transactions
  have hnone : colIdx? df.cols "Category" = none := colIdx?_eq_none hcat
  have hset : setColumn df "Category" (df.rows.map (fun _ => Cell.str "Uncategorized")) =
      ⟨df.cols ++ ["Category"], df.rows.map (fun r => r ++ [Cell.str "Uncategorized"])⟩ := by
    simp only [setColumn, hnone]
    rw [List.zipWith_map_right, List.zipWith_same]
  rw [hset]
  have hdi' : colIdx? (df.cols ++ ["Category"]) "Details" = some di :=
    colIdx?_append_left hdi
  have hci : colIdx? (df.cols ++ ["Category"]) "Category" = some df.cols.length := by
    rw [colIdx?_append_of_none hnone]
    simp [colIdx?]
  exact classifyFold_spec cats _ df.rows di hdi' df.cols.length hci hrect
    (colIdx?_lt hdi) hstr (fun _ => "Uncategorized")

/-! ### Helper lemmas about the rule store -/

theorem storeUpdate_keys (s : Store) (k : String) (v : List String) :
    (storeUpdate s k v).map Prod.fst = s.map Prod.fst := by
  induction s with
  | nil => rfl
  | cons p rest ih =>
    simp only [storeUpdate, List.map_cons] at ih ⊢
    by_cases hp : p.1 = k
    · simp [hp, ih]
    · simp [hp, ih]

theorem add_keyword_keys {rs : RuleState} {category keyword : String}
    {rs' : RuleState} {b : Bool}
    (h : add_keyword_to_category rs category keyword = .ok (rs', b)) :
    rs'.categories.map Prod.fst = rs.categories.map Prod.fst := by
  simp only [add_keyword_to_category] at h
  by_cases h0 : pyStrip keyword = ""
  · rw [if_pos h0] at h
    simp only [Except.ok.injEq, Prod.mk.injEq] at h
    obtain ⟨rfl, -⟩ := h
    rfl
  · rw [if_neg h0] at h
    cases hl : List.lookup category rs.categories with
    | none => rw [hl] at h; exact absurd h (by simp)
    | some kws =>
      rw [hl] at h
      dsimp only at h
      by_cases hmem : pyStrip keyword ∈ kws
      · rw [if_pos hmem] at h
        simp only [Except.ok.injEq, Prod.mk.injEq] at h
        obtain ⟨rfl, -⟩ := h
        rfl
      · rw [if_neg hmem] at h
        simp only [Except.ok.injEq, Prod.mk.injEq] at h
        obtain ⟨rfl, -⟩ := h
        exact storeUpdate_keys _ _ _

/-! ### Claim theorems -/

/-- C1: Last-match-wins tie-break.  For every transaction frame and every
rule store split as `l₁ ++ c :: l₂` where category `c` matches a row's
details and no later category in insertion order does, `classify`
(`categories_transactions`) finally assigns `c`'s name to that row; in
particular, with categories A (inserted first) and B (inserted second)
both containing keyword "coffee", a transaction with details "Coffee" is
assigned B, the later category. -/
theorem classify_last_match_wins
    (l₁ l₂ : Store) (c : String × List String) (df : DataFrame)
    (hcat : "Category" ∉ df.cols)
    (di : Nat) (hdi : colIdx? df.cols "Details" = some di)
    (hrect : ∀ r ∈ df.rows, r.length = df.cols.length)
    (hstr : ∀ r ∈ df.rows, ∃ s, r.get? di = some (Cell.str s))
    (i : Nat) (r : List Cell) (s : String)
    (hr : df.rows.get? i = some r) (hs : r.get? di = some (Cell.str s))
    (hm : matchesB c s = true)
    (hl₂ : ∀ c' ∈ l₂, matchesB c' s = false) :
    ∃ df', categories_transactions (l₁ ++ c :: l₂) df = .ok df' ∧
      df'.rows.get? i = some (r ++ [Cell.str c.1]) := by
  refine ⟨_, categories_transactions_spec _ df hcat di hdi hrect hstr, ?_⟩
  simp only [List.get?_map, hr, Option.map_some']
  have hdet : detStr r di = s := by unfold detStr; rw [hs]
  rw [hdet, finalCat_last_match hm hl₂]

/-- Witness for C1: the spec's concrete scenario, category "A" then "B"
both holding keyword "coffee", a one-row frame with details "Coffee";
classification assigns "B". -/
theorem classify_last_match_wins_witness :
    ∃ df', categories_transactions
        [("Uncategorized", []), ("A", ["coffee"]), ("B", ["coffee"])]
        ⟨["Details"], [[Cell.str "Coffee"]]⟩ = .ok df' ∧
      df'.rows.get? 0 = some [Cell.str "Coffee", Cell.str "B"] :=
  classify_last_match_wins [("Uncategorized", []), ("A", ["coffee"])] []
    ("B", ["coffee"]) ⟨["Details"], [[Cell.str "Coffee"]]⟩ (by decide) 0 (by decide)
    (by decide)
    (by intro r hr; rw [List.mem_singleton] at hr; subst hr; exact ⟨"Coffee", rfl⟩)
    0 [Cell.str "Coffee"] "Coffee" rfl rfl (by decide)
    (by intro c' hc'; simp at hc')

/-- C7: Exact-match semantics.  The classifier compares the lower-cased,
stripped details for equality with each lower-cased, stripped keyword:
when no category's normalized keyword equals the row's normalized details
— even though some keyword occurs strictly inside the details as a
substring — the row keeps `"Uncategorized"`. -/
theorem classify_exact_match
    (cats : Store) (df : DataFrame)
    (hcat : "Category" ∉ df.cols)
    (di : Nat) (hdi : colIdx? df.cols "Details" = some di)
    (hrect : ∀ r ∈ df.rows, r.length = df.cols.length)
    (hstr : ∀ r ∈ df.rows, ∃ s, r.get? di = some (Cell.str s))
    (i : Nat) (r : List Cell) (s : String)
    (hr : df.rows.get? i = some r) (hs : r.get? di = some (Cell.str s))
    (hsub : ∃ c, c ∈ cats ∧ ∃ k, k ∈ c.2 ∧ lowerStrip s ≠ lowerStrip k ∧
      ∃ pre post, lowerStrip s = pre ++ lowerStrip k ++ post)
    (hnm : ∀ c ∈ cats, matchesB c s = false) :
    ∃ df', categories_transactions cats df = .ok df' ∧
      df'.rows.get? i = some (r ++ [Cell.str "Uncategorized"]) := by
  refine ⟨_, categories_transactions_spec _ df hcat di hdi hrect hstr, ?_⟩
  simp only [List.get?_map, hr, Option.map_some']
  have hdet : detStr r di = s := by unfold detStr; rw [hs]
  rw [hdet]
  unfold finalCat
  rw [finalCatFrom_no_match hnm]

/-- Witness for C7: keyword "coffee" occurs strictly inside the details
"Best Coffee Shop" but is not equal to it, so the row stays
"Uncategorized". -/
theorem classify_exact_match_witness :
    ∃ df', categories_transactions [("Uncategorized", []), ("Food", ["coffee"])]
        ⟨["Details"], [[Cell.str "Best Coffee Shop"]]⟩ = .ok df' ∧
      df'.rows.get? 0 = some [Cell.str "Best Coffee Shop", Cell.str "Uncategorized"] :=
  classify_exact_match [("Uncategorized", []), ("Food", ["coffee"])]
    ⟨["Details"], [[Cell.str "Best Coffee Shop"]]⟩ (by decide) 0 (by decide)
    (by decide)
    (by intro r hr; rw [List.mem_singleton] at hr; subst hr
        exact ⟨"Best Coffee Shop", rfl⟩)
    0 [Cell.str "Best Coffee Shop"] "Best Coffee Shop" rfl rfl
    ⟨("Food", ["coffee"]), by decide, "coffee", by decide, by decide,
      "best ", " shop", by decide⟩
    (by decide)

/-- C6: Reclassify no-op law.  When the edited category of a row equals
the currently stored one, the Apply-Changes step for that row skips it:
the rule store (mapping and persisted form alike) and the debits frame
are returned exactly unchanged. -/
theorem reclassify_noop (rs : RuleState) (debits edited : DataFrame) (idx : Nat)
    (c : Cell)
    (h1 : getAt edited idx "Category" = some c)
    (h2 : getAt debits idx "Category" = some c) :
    applyRow rs debits edited idx = .ok (rs, debits) := by
  unfold applyRow
  rw [h1, h2]
  dsimp only
  rw [if_pos rfl]

/-- Witness for C6: a concrete one-row edit whose category equals the
stored one; the step returns the state unchanged. -/
theorem reclassify_noop_witness :
    applyRow ⟨[("Uncategorized", []), ("Food", ["coffee"])], none⟩
      ⟨["Details", "Category"], [[Cell.str "COFFEE", Cell.str "Food"]]⟩
      ⟨["Details", "Category"], [[Cell.str "COFFEE", Cell.str "Food"]]⟩ 0 =
    .ok (⟨[("Uncategorized", []), ("Food", ["coffee"])], none⟩,
         ⟨["Details", "Category"], [[Cell.str "COFFEE", Cell.str "Food"]]⟩) :=
  reclassify_noop ⟨[("Uncategorized", []), ("Food", ["coffee"])], none⟩
    ⟨["Details", "Category"], [[Cell.str "COFFEE", Cell.str "Food"]]⟩
    ⟨["Details", "Category"], [[Cell.str "COFFEE", Cell.str "Food"]]⟩ 0
    (Cell.str "Food") rfl rfl

/-- C3 counterexample: with the store `{"Uncategorized": []}`, category
"Food" absent and the non-empty keyword "x", `add_keyword_to_category`
raises `KeyError` (modelled `.error ()`) instead of returning a
failure boolean without mutation, refuting the claim's
missing-category clause. -/
theorem add_keyword_missing_category_raises :
    add_keyword_to_category ⟨[("Uncategorized", [])], none⟩ "Food" "x" = .error ()
    ∧ ∀ p, add_keyword_to_category ⟨[("Uncategorized", [])], none⟩ "Food" "x" ≠ .ok p := by
  refine ⟨rfl, fun p h => ?_⟩
  rw [show add_keyword_to_category ⟨[("Uncategorized", [])], none⟩ "Food" "x" =
      .error () from rfl] at h
  exact Except.noConfusion h

/-- C3 (amended): `add_keyword_to_category` first strips the keyword and
returns `False` with no mutation when the stripped keyword is empty, or
when the category exists and already holds the keyword (case-sensitive
comparison); when the stripped keyword is non-empty and the category is
absent it raises `KeyError` instead of returning a failure value; in the
remaining case it appends the keyword, saves, and returns `True`. -/
theorem add_keyword_spec (rs : RuleState) (category keyword : String) :
    (pyStrip keyword = "" →
      add_keyword_to_category rs category keyword = .ok (rs, false))
    ∧ (pyStrip keyword ≠ "" → List.lookup category rs.categories = none →
        add_keyword_to_category rs category keyword = .error ())
    ∧ (∀ kws, pyStrip keyword ≠ "" → List.lookup category rs.categories = some kws →
        pyStrip keyword ∈ kws →
        add_keyword_to_category rs category keyword = .ok (rs, false))
    ∧ (∀ kws, pyStrip keyword ≠ "" → List.lookup category rs.categories = some kws →
        pyStrip keyword ∉ kws →
        add_keyword_to_category rs category keyword =
          .ok (⟨storeUpdate rs.categories category (kws ++ [pyStrip keyword]),
                some (storeUpdate rs.categories category (kws ++ [pyStrip keyword]))⟩,
               true)) := by
  refine ⟨fun h0 => ?_, fun h0 hl => ?_, fun kws h0 hl hmem => ?_,
    fun kws h0 hl hmem => ?_⟩
  · simp only [add_keyword_to_category]
    rw [if_pos h0]
  · simp only [add_keyword_to_category]
    rw [if_neg h0, hl]
  · simp only [add_keyword_to_category]
    rw [if_neg h0, hl]
    dsimp only
    rw [if_pos hmem]
  · simp only [add_keyword_to_category]
    rw [if_neg h0, hl]
    dsimp only
    rw [if_neg hmem]

/-- Witness for C3's amended statement: the three non-raising outcomes and
the raising one, each at a concrete input. -/
theorem add_keyword_spec_witness :
    add_keyword_to_category ⟨[("Food", ["a"])], none⟩ "Food" "  " =
      .ok (⟨[("Food", ["a"])], none⟩, false)
    ∧ add_keyword_to_category ⟨[("Food", ["a"])], none⟩ "Fuel" "x" = .error ()
    ∧ add_keyword_to_category ⟨[("Food", ["a"])], none⟩ "Food" " a " =
      .ok (⟨[("Food", ["a"])], none⟩, false)
    ∧ add_keyword_to_category ⟨[("Food", ["a"])], none⟩ "Food" "b" =
      .ok (⟨[("Food", ["a", "b"])], some [("Food", ["a", "b"])]⟩, true) :=
  ⟨(add_keyword_spec ⟨[("Food", ["a"])], none⟩ "Food" "  ").1 (by decide),
   (add_keyword_spec ⟨[("Food", ["a"])], none⟩ "Fuel" "x").2.1 (by decide) (by decide),
   (add_keyword_spec ⟨[("Food", ["a"])], none⟩ "Food" " a ").2.2.1 ["a"]
     (by decide) (by decide) (by decide),
   (add_keyword_spec ⟨[("Food", ["a"])], none⟩ "Food" "b").2.2.2 ["a"]
     (by decide) (by decide) (by decide)⟩

/-- C5: Uncategorized invariant.  Initialization (the default mapping, or
a persisted file satisfying the rule-file interface's requirement of
holding the key) yields a mapping containing "Uncategorized"; every
rule-store operation of the application (add-category, add-keyword,
apply-changes rows) preserves the key's presence — no operation deletes
it — and `add_category "Uncategorized"` is a no-op. -/
theorem uncategorized_invariant :
    (∀ p : Option Store, (∀ s, p = some s → "Uncategorized" ∈ s.map Prod.fst) →
      "Uncategorized" ∈ (initState p).categories.map Prod.fst)
    ∧ (∀ rs name, "Uncategorized" ∈ rs.categories.map Prod.fst →
        "Uncategorized" ∈ (add_category rs name).categories.map Prod.fst)
    ∧ (∀ rs category keyword rs' b,
        "Uncategorized" ∈ rs.categories.map Prod.fst →
        add_keyword_to_category rs category keyword = .ok (rs', b) →
        "Uncategorized" ∈ rs'.categories.map Prod.fst)
    ∧ (∀ rs debits edited idx rs' debits',
        "Uncategorized" ∈ rs.categories.map Prod.fst →
        applyRow rs debits edited idx = .ok (rs', debits') →
        "Uncategorized" ∈ rs'.categories.map Prod.fst)
    ∧ (∀ rs, "Uncategorized" ∈ rs.categories.map Prod.fst →
        add_category rs "Uncategorized" = rs) := by
  have hk : ∀ {rs rs' : RuleState} {category keyword : String} {b : Bool},
      add_keyword_to_category rs category keyword = .ok (rs', b) →
      "Uncategorized" ∈ rs.categories.map Prod.fst →
      "Uncategorized" ∈ rs'.categories.map Prod.fst := by
    intro rs rs' category keyword b h hmem
    rw [add_keyword_keys h]
    exact hmem
  refine ⟨fun p hp => ?_, fun rs name hmem => ?_, fun rs c k rs' b hmem h => hk h hmem,
    fun rs debits edited idx rs' debits' hmem h => ?_, fun rs hmem => ?_⟩
  · cases p with
    | none => simp [initState]
    | some s => exact hp s rfl
  · unfold add_category
    by_cases h0 : name = ""
    · rw [if_pos h0]; exact hmem
    · rw [if_neg h0]
      by_cases h1 : rs.categories.any (fun p => p.1 == name)
      · rw [if_pos h1]; exact hmem
      · rw [if_neg h1]
        simp only [List.map_append]
        exact List.mem_append_left _ hmem
  · unfold applyRow at h
    cases hne : getAt edited idx "Category" with
    | none => rw [hne] at h; exact absurd h (by simp)
    | some ne =>
      cases hcu : getAt debits idx "Category" with
      | none => rw [hne, hcu] at h; exact absurd h (by simp)
      | some cu =>
        rw [hne, hcu] at h
        dsimp only at h
        by_cases heq : ne = cu
        · rw [if_pos heq] at h
          simp only [Except.ok.injEq, Prod.mk.injEq] at h
          obtain ⟨rfl, -⟩ := h
          exact hmem
        · rw [if_neg heq] at h
          cases ne with
          | str newCat =>
            cases hdet : getAt edited idx "Details" with
            | none => rw [hdet] at h; exact absurd h (by simp)
            | some det =>
              rw [hdet] at h
              cases det with
              | str d =>
                dsimp only at h
                cases hak : add_keyword_to_category rs newCat d with
                | error e => rw [hak] at h; exact absurd h (by simp)
                | ok p =>
                  obtain ⟨rs'', b⟩ := p
                  rw [hak] at h
                  dsimp only at h
                  simp only [Except.ok.injEq, Prod.mk.injEq] at h
                  obtain ⟨h1, -⟩ := h
                  subst h1
                  exact hk hak hmem
              | num q => exact absurd h (by simp)
              | date y m d => exact absurd h (by simp)
          | num q => exact absurd h (by simp)
          | date y m d => exact absurd h (by simp)
  · unfold add_category
    rw [if_neg (by decide)]
    rw [if_pos ?_]
    rw [List.any_eq_true]
    simp only [List.mem_map] at hmem
    obtain ⟨p, hp, hp1⟩ := hmem
    exact ⟨p, hp, by simp [hp1]⟩

/-- Witness for C5: the invariant's clauses at concrete states. -/
theorem uncategorized_invariant_witness :
    "Uncategorized" ∈ (initState none).categories.map Prod.fst
    ∧ "Uncategorized" ∈
        (add_category ⟨[("Uncategorized", [])], none⟩ "Food").categories.map Prod.fst
    ∧ "Uncategorized" ∈
        ([("Uncategorized", []), ("Food", ["x"])] : Store).map Prod.fst
    ∧ add_category ⟨[("Uncategorized", [])], none⟩ "Uncategorized" =
        ⟨[("Uncategorized", [])], none⟩ :=
  ⟨uncategorized_invariant.1 none (fun s h => Option.noConfusion h),
   uncategorized_invariant.2.1 ⟨[("Uncategorized", [])], none⟩ "Food" (by decide),
   uncategorized_invariant.2.2.1 ⟨[("Uncategorized", []), ("Food", [])], none⟩
     "Food" "x" ⟨[("Uncategorized", []), ("Food", ["x"])],
       some [("Uncategorized", []), ("Food", ["x"])]⟩ true (by decide) rfl,
   uncategorized_invariant.2.2.2.2 ⟨[("Uncategorized", [])], none⟩ (by decide)⟩

theorem lookup_append_first {l₁ l₂ : Store} {k : String} {v : List String}
    (h : ∀ p ∈ l₁, p.1 ≠ k) :
    List.lookup k (l₁ ++ (k, v) :: l₂) = some v := by
  induction l₁ with
  | nil => simp [List.lookup]
  | cons p rest ih =>
    have hp : (k == p.1) = false := by
      have := h p (by simp)
      simp [BEq.comm]
      exact fun hkp => this hkp.symm
    simp only [List.cons_append, List.lookup, hp]
    exact ih (fun p' hp' => h p' (by simp [hp']))

theorem storeUpdate_append {l₁ l₂ : Store} {k : String} {v₀ v : List String}
    (h₁ : ∀ p ∈ l₁, p.1 ≠ k) (h₂ : ∀ p ∈ l₂, p.1 ≠ k) :
    storeUpdate (l₁ ++ (k, v₀) :: l₂) k v = l₁ ++ (k, v) :: l₂ := by
  unfold storeUpdate
  rw [List.map_append]
  have e₁ : ∀ l : Store, (∀ p ∈ l, p.1 ≠ k) →
      l.map (fun p => if p.1 = k then (p.1, v) else p) = l := by
    intro l hl
    induction l with
    | nil => rfl
    | cons p rest ih =>
      simp only [List.map_cons, if_neg (hl p (by simp))]
      rw [ih (fun p' hp' => hl p' (by simp [hp']))]
  rw [e₁ l₁ h₁]
  simp only [List.map_cons, e₁ l₂ h₂]
  simp

/-- C2: Learning law.  For a row whose details are "WHOLE FOODS 123" and
whose stored category differs from "Groceries", the Apply-Changes step
with edited category "Groceries" (a category present in the store, the
keyword not yet recorded) appends the exact details text to "Groceries"'s
keyword list and persists it; afterwards a fresh
`categories_transactions` run assigns "Groceries" to any row with
identical details (no later category matching it). -/
theorem reclassify_learning
    (rs : RuleState) (debits edited : DataFrame) (idx : Nat)
    (l₁ l₂ : Store) (gkws : List String) (cur : Cell)
    (hstore : rs.categories = l₁ ++ ("Groceries", gkws) :: l₂)
    (hl₁ : ∀ p ∈ l₁, p.1 ≠ "Groceries") (hl₂k : ∀ p ∈ l₂, p.1 ≠ "Groceries")
    (hne : getAt edited idx "Category" = some (Cell.str "Groceries"))
    (hcur : getAt debits idx "Category" = some cur)
    (hdiff : cur ≠ Cell.str "Groceries")
    (hdet : getAt edited idx "Details" = some (Cell.str "WHOLE FOODS 123"))
    (hnotmem : "WHOLE FOODS 123" ∉ gkws)
    (hl₂m : ∀ c ∈ l₂, matchesB c "WHOLE FOODS 123" = false) :
    ∃ rs', applyRow rs debits edited idx =
        .ok (rs', setAt debits idx "Category" (Cell.str "Groceries"))
      ∧ rs'.categories = l₁ ++ ("Groceries", gkws ++ ["WHOLE FOODS 123"]) :: l₂
      ∧ (∀ df df2 di i r, "Category" ∉ df.cols →
          colIdx? df.cols "Details" = some di →
          (∀ r' ∈ df.rows, r'.length = df.cols.length) →
          (∀ r' ∈ df.rows, ∃ s, r'.get? di = some (Cell.str s)) →
          df.rows.get? i = some r →
          r.get? di = some (Cell.str "WHOLE FOODS 123") →
          categories_transactions rs'.categories df = .ok df2 →
          df2.rows.get? i = some (r ++ [Cell.str "Groceries"])) := by
  have hkw : pyStrip "WHOLE FOODS 123" = "WHOLE FOODS 123" := by decide
  have hlook : List.lookup "Groceries" rs.categories = some gkws := by
    rw [hstore]; exact lookup_append_first hl₁
  have hupd : storeUpdate rs.categories "Groceries" (gkws ++ ["WHOLE FOODS 123"]) =
      l₁ ++ ("Groceries", gkws ++ ["WHOLE FOODS 123"]) :: l₂ := by
    rw [hstore]; exact storeUpdate_append hl₁ hl₂k
  have hak : add_keyword_to_category rs "Groceries" "WHOLE FOODS 123" =
      .ok (⟨l₁ ++ ("Groceries", gkws ++ ["WHOLE FOODS 123"]) :: l₂,
            some (l₁ ++ ("Groceries", gkws ++ ["WHOLE FOODS 123"]) :: l₂)⟩, true) := by
    simp only [add_keyword_to_category, hkw]
    rw [if_neg (by decide), hlook]
    dsimp only
    rw [if_neg hnotmem, hupd]
  refine ⟨⟨l₁ ++ ("Groceries", gkws ++ ["WHOLE FOODS 123"]) :: l₂,
          some (l₁ ++ ("Groceries", gkws ++ ["WHOLE FOODS 123"]) :: l₂)⟩, ?_, rfl, ?_⟩
  · unfold applyRow
    rw [hne, hcur]
    dsimp only
    rw [if_neg (fun he => hdiff he.symm), hdet]
    dsimp only
    rw [hak]
  · intro df df2 di i r hcat hdi hrect hstr hr hs h
    rw [categories_transactions_spec _ df hcat di hdi hrect hstr] at h
    injection h with h2
    subst h2
    simp only [List.get?_map, hr, Option.map_some']
    have hdet' : detStr r di = "WHOLE FOODS 123" := by unfold detStr; rw [hs]
    rw [hdet']
    have hm : matchesB ("Groceries", gkws ++ ["WHOLE FOODS 123"]) "WHOLE FOODS 123" = true := by
      simp only [matchesB, loweredKeywords, Bool.and_eq_true]
      refine ⟨by decide, ?_⟩
      simp
    rw [finalCat_last_match hm hl₂m]

/-- Witness for C2: a one-row debits frame reclassified to "Groceries"
learns the keyword, and a fresh classification of a one-column frame with
the same details yields "Groceries". -/
theorem reclassify_learning_witness :
    ∃ rs', applyRow ⟨[("Uncategorized", []), ("Groceries", [])], none⟩
        ⟨["Details", "Category"], [[Cell.str "WHOLE FOODS 123", Cell.str "Uncategorized"]]⟩
        ⟨["Details", "Category"], [[Cell.str "WHOLE FOODS 123", Cell.str "Groceries"]]⟩ 0 =
        .ok (rs', setAt ⟨["Details", "Category"],
              [[Cell.str "WHOLE FOODS 123", Cell.str "Uncategorized"]]⟩ 0 "Category"
              (Cell.str "Groceries"))
      ∧ rs'.categories = [("Uncategorized", []), ("Groceries", ["WHOLE FOODS 123"])]
      ∧ (∀ df df2 di i r, "Category" ∉ df.cols →
          colIdx? df.cols "Details" = some di →
          (∀ r' ∈ df.rows, r'.length = df.cols.length) →
          (∀ r' ∈ df.rows, ∃ s, r'.get? di = some (Cell.str s)) →
          df.rows.get? i = some r →
          r.get? di = some (Cell.str "WHOLE FOODS 123") →
          categories_transactions rs'.categories df = .ok df2 →
          df2.rows.get? i = some (r ++ [Cell.str "Groceries"])) :=
  reclassify_learning ⟨[("Uncategorized", []), ("Groceries", [])], none⟩
    ⟨["Details", "Category"], [[Cell.str "WHOLE FOODS 123", Cell.str "Uncategorized"]]⟩
    ⟨["Details", "Category"], [[Cell.str "WHOLE FOODS 123", Cell.str "Groceries"]]⟩ 0
    [("Uncategorized", [])] [] [] (Cell.str "Uncategorized") rfl
    (by decide) (by intro p hp; simp at hp)
    rfl rfl (by decide) rfl (by simp) (by intro c hc; simp at hc)

/-! ### Helper lemmas about the loading pipeline's columns -/

theorem classifyFold_cols {cats : Store} {df df' : DataFrame}
    (h : classifyFold cats df = .ok df') : df'.cols = df.cols := by
  induction cats generalizing df with
  | nil =>
    unfold classifyFold at h
    injection h with h1
    rw [h1]
  | cons c rest ih =>
    unfold classifyFold at h
    by_cases hskip : c.1 = "Uncategorized" ∨ c.2 = []
    · rw [if_pos hskip] at h
      exact ih h
    · rw [if_neg hskip] at h
      cases hr : rowsClassify df.cols c.1 (loweredKeywords c.2) df.rows with
      | error e => rw [hr] at h; exact absurd h (by simp)
      | ok rows' => rw [hr] at h; dsimp only at h; exact @ih ⟨df.cols, rows'⟩ h

theorem categories_transactions_cols {cats : Store} {df df' : DataFrame}
    (h : categories_transactions cats df = .ok df') :
    df'.cols = df.cols ∨ df'.cols = df.cols ++ ["Category"] := by
  unfold categories_transactions at h
  have hc := classifyFold_cols h
  rw [hc]
  cases h' : colIdx? df.cols "Category" with
  | none => right; simp [setColumn, h']
  | some j => left; simp [setColumn, h']

theorem getColumn_found {df : DataFrame} {name : String} {cells : List Cell}
    (h : getColumn df name = some cells) : ∃ j, colIdx? df.cols name = some j := by
  unfold getColumn at h
  cases hj : colIdx? df.cols name with
  | none => rw [hj] at h; exact absurd h (by simp)
  | some j => exact ⟨j, rfl⟩

theorem setColumn_cols_found {df : DataFrame} {name : String} {j : Nat}
    (cells : List Cell) (h : colIdx? df.cols name = some j) :
    (setColumn df name cells).cols = df.cols := by
  simp [setColumn, h]

/-- The columns a successfully loaded frame can have: the stripped input
header, plus possibly the appended `Category` column. -/
theorem load_cols {cats : Store} {t : RawTable} {df : DataFrame}
    (h : load_transactions cats t = some df) :
    df.cols = t.header.map pyStrip ∨ df.cols = t.header.map pyStrip ++ ["Category"] := by
  unfold load_transactions at h
  dsimp only at h
  cases h1 : getColumn ⟨(read_csv t).cols.map pyStrip, (read_csv t).rows⟩ "Amount" with
  | none => rw [h1] at h; exact absurd h (by simp)
  | some amountCells =>
    rw [h1] at h
    dsimp only at h
    cases h2 : optMapM cellStr? amountCells with
    | none => rw [h2] at h; exact absurd h (by simp)
    | some strs =>
      rw [h2] at h
      dsimp only at h
      cases h3 : optMapM (fun s => parsePyFloat (removeCommas s)) strs with
      | none => rw [h3] at h; exact absurd h (by simp)
      | some qs =>
        rw [h3] at h
        dsimp only at h
        obtain ⟨j1, hj1⟩ := getColumn_found h1
        have hamt := @setColumn_cols_found ⟨(read_csv t).cols.map pyStrip,
          (read_csv t).rows⟩ "Amount" j1 (qs.map Cell.num) hj1
        cases h4 : getColumn (setColumn ⟨(read_csv t).cols.map pyStrip,
            (read_csv t).rows⟩ "Amount" (qs.map Cell.num)) "Date" with
        | none => rw [h4] at h; exact absurd h (by simp)
        | some dateCells =>
          rw [h4] at h
          dsimp only at h
          cases h5 : optMapM cellDate? dateCells with
          | none => rw [h5] at h; exact absurd h (by simp)
          | some ds =>
            rw [h5] at h
            dsimp only at h
            obtain ⟨j2, hj2⟩ := getColumn_found h4
            have hdat := setColumn_cols_found
              (ds.map (fun p => Cell.date p.1 p.2.1 p.2.2)) hj2
            cases h6 : categories_transactions cats
                (setColumn (setColumn ⟨(read_csv t).cols.map pyStrip,
                  (read_csv t).rows⟩ "Amount" (qs.map Cell.num)) "Date"
                  (ds.map (fun p => Cell.date p.1 p.2.1 p.2.2))) with
            | error e => rw [h6] at h; exact absurd h (by simp)
            | ok df4 =>
              rw [h6] at h
              dsimp only at h
              injection h with h7
              subst h7
              have := categories_transactions_cols h6
              rw [hdat, hamt] at this
              exact this

/-- C4 counterexample: a table with Date, Details and Amount but no
`Debit/Credit` column loads with no reported error at all (the claim
requires a reported MissingColumn error), and the pipeline then raises
an uncaught `KeyError` at the debit/credit split in `main`. -/
theorem missing_debit_credit_crash :
    load_transactions [("Uncategorized", [])]
      ⟨["Date", "Details", "Amount"], [["05 Jan 2024", "X", "1,234.50"]]⟩ ≠ none
    ∧ mainProcess ⟨⟨[("Uncategorized", [])], none⟩, none, none⟩
      ⟨["Date", "Details", "Amount"], [["05 Jan 2024", "X", "1,234.50"]]⟩ = .error () := by
  constructor
  · decide
  · rfl

/-- C4 (amended): for every input table without a `Debit/Credit` column,
no MissingColumn error is reported at load time: either the load fails
for an unrelated reason (and the session state, including any prior
transaction set, is returned unchanged) or the load succeeds and the
debit/credit split in `main` raises an uncaught `KeyError` — before the
session's stored transaction set is updated, which therefore also stays
unchanged. -/
theorem missing_debit_credit_behavior (st : AppState) (t : RawTable)
    (h : "Debit/Credit" ∉ t.header.map pyStrip) :
    (load_transactions st.rules.categories t = none → mainProcess st t = .ok st)
    ∧ (load_transactions st.rules.categories t ≠ none → mainProcess st t = .error ()) := by
  constructor
  · intro hl
    unfold mainProcess
    rw [hl]
  · intro hl
    obtain ⟨df, hdf⟩ := Option.ne_none_iff_exists.mp hl
    have hcols := load_cols hdf.symm
    have hnotin : "Debit/Credit" ∉ df.cols := by
      rcases hcols with hc | hc <;> rw [hc]
      · exact h
      · intro hmem
        rcases List.mem_append.mp hmem with hm | hm
        · exact h hm
        · simp at hm
    have hsplit : debitCreditSplit df = .error () := by
      unfold debitCreditSplit
      rw [colIdx?_eq_none hnotin]
    unfold mainProcess
    rw [← hdf]
    dsimp only
    rw [hsplit]

/-- Witness for C4's amended statement: a failing load leaves the state
unchanged, and a successful load of a Debit/Credit-less table crashes. -/
theorem missing_debit_credit_behavior_witness :
    mainProcess ⟨⟨[("Uncategorized", [])], none⟩, none, none⟩
      ⟨["Date", "Details", "Amount"], [["bad date", "X", "1,234.50"]]⟩ =
      .ok ⟨⟨[("Uncategorized", [])], none⟩, none, none⟩
    ∧ mainProcess ⟨⟨[("Uncategorized", [])], none⟩, some ⟨["Old"], []⟩, none⟩
      ⟨["Date", "Details", "Amount"], [["05 Jan 2024", "X", "1,234.50"]]⟩ = .error () :=
  ⟨(missing_debit_credit_behavior ⟨⟨[("Uncategorized", [])], none⟩, none, none⟩
      ⟨["Date", "Details", "Amount"], [["bad date", "X", "1,234.50"]]⟩ (by decide)).1 rfl,
   (missing_debit_credit_behavior ⟨⟨[("Uncategorized", [])], none⟩, some ⟨["Old"], []⟩, none⟩
      ⟨["Date", "Details", "Amount"], [["05 Jan 2024", "X", "1,234.50"]]⟩ (by decide)).2
      (by decide)⟩

/-- C10: An input table whose `Amount` column is entirely plain numbers
(no thousands-separator commas, at least one row) is ingested with a
numeric dtype, so `df["Amount"].str` raises and `load_transactions`
reports an error and returns no transaction set. -/
theorem numeric_amount_rejected (cats : Store) (t : RawTable) (j : Nat)
    (hj : colIdx? (t.header.map pyStrip) "Amount" = some j)
    (hrows : t.rows ≠ [])
    (hnum : ∀ r ∈ t.rows, (parsePyFloat (r.getD j "")).isSome) :
    load_transactions cats t = none := by
  obtain ⟨r₀, rest, hrw⟩ : ∃ r₀ rest, t.rows = r₀ :: rest := by
    cases ht : t.rows with
    | nil => exact absurd ht hrows
    | cons a b => exact ⟨a, b, rfl⟩
  have hn : j < t.header.length := by
    have := colIdx?_lt hj
    simpa using this
  have hcn : colIsNumeric t j = true := by
    unfold colIsNumeric
    rw [Bool.and_eq_true, List.all_eq_true]
    refine ⟨?_, fun r hr => hnum r hr⟩
    rw [hrw, List.isEmpty_cons]
    rfl
  have hG : getColumn ⟨(read_csv t).cols.map pyStrip, (read_csv t).rows⟩ "Amount" =
      some (Cell.num ((parsePyFloat (r₀.getD j "")).getD 0) ::
        (rest.map (fun r => ((List.range t.header.length).map (fun j' =>
          if colIsNumeric t j' then Cell.num ((parsePyFloat (r.getD j' "")).getD 0)
          else Cell.str (r.getD j' ""))).getD j (Cell.str "")))) := by
    unfold getColumn
    rw [show colIdx? ((read_csv t).cols.map pyStrip) "Amount" = some j from hj]
    dsimp only
    show some ((read_csv t).rows.map (fun r => r.getD j (Cell.str ""))) = _
    unfold read_csv
    dsimp only
    rw [hrw]
    simp only [List.map_cons, List.map_map, Function.comp]
    rw [List.getD_eq_get?, List.get?_map, List.get?_range hn]
    simp only [Option.map_some', Option.getD_some, hcn, if_true]
    rfl
  unfold load_transactions
  dsimp only
  rw [hG]
  dsimp only [optMapM, cellStr?]

/-- Witness for C10: a concrete table whose only Amount value is the
plain number "10.5" is rejected by the loader. -/
theorem numeric_amount_rejected_witness :
    load_transactions [("Uncategorized", [])]
      ⟨["Date", "Details", "Amount", "Debit/Credit"],
       [["05 Jan 2024", "X", "10.5", "Debit"]]⟩ = none :=
  numeric_amount_rejected [("Uncategorized", [])]
    ⟨["Date", "Details", "Amount", "Debit/Credit"],
     [["05 Jan 2024", "X", "10.5", "Debit"]]⟩ 2 (by decide) (by decide)
    (by intro r hr; rw [List.mem_singleton] at hr; subst hr; decide)

/-- C9: Parse round trip.  The row with `Amount = "1,234.50"` and
`Date = "05 Jan 2024"` loads with the amount parsed to the rational
1234.50 (commas stripped before conversion) and the date parsed to
2024-01-05 under the fixed day/abbreviated-month/year format. -/
theorem parse_round_trip :
    ∃ df, load_transactions [("Uncategorized", [])]
        ⟨["Date", "Details", "Amount", "Debit/Credit"],
         [["05 Jan 2024", "COFFEE", "1,234.50", "Debit"]]⟩ = some df
      ∧ (∃ q, getAt df 0 "Amount" = some (Cell.num q) ∧ q = 2469 / 2)
      ∧ getAt df 0 "Date" = some (Cell.date 2024 1 5) := by
  refine ⟨_, rfl, ⟨_, rfl, ?_⟩, rfl⟩
  have e1 : digitsVal (List.takeWhile (fun c => c != '.')
      ['1', '2', '3', '4', '.', '5', '0']) = 1234 := rfl
  have e2 : digitsVal ['5', '0'] = 50 := rfl
  have e3 : (['5', '0'] : List Char).length = 2 := rfl
  rw [e1, e2, e3]
  norm_num

/-! ### Helper lemmas about the summary's sorting and grouping -/

theorem mem_insertDesc {p q : String × ℚ} {l : List (String × ℚ)} :
    q ∈ insertDesc p l ↔ q = p ∨ q ∈ l := by
  induction l with
  | nil => simp [insertDesc]
  | cons x xs ih =>
    unfold insertDesc
    by_cases hx : x.2 ≤ p.2
    · rw [if_pos hx]
      simp [List.mem_cons, or_comm, or_assoc, or_left_comm]
    · rw [if_neg hx]
      simp only [List.mem_cons, ih]
      tauto

theorem mem_sortDesc {q : String × ℚ} {l : List (String × ℚ)} :
    q ∈ sortDesc l ↔ q ∈ l := by
  induction l with
  | nil => simp [sortDesc]
  | cons x xs ih =>
    unfold sortDesc
    rw [mem_insertDesc]
    simp [ih]

theorem pairwise_insertDesc {p : String × ℚ} {l : List (String × ℚ)}
    (h : List.Pairwise (fun a b => b.2 ≤ a.2) l) :
    List.Pairwise (fun a b => b.2 ≤ a.2) (insertDesc p l) := by
  induction l with
  | nil => simp [insertDesc]
  | cons x xs ih =>
    rcases List.pairwise_cons.mp h with ⟨hrel, hxs⟩
    unfold insertDesc
    by_cases hle : x.2 ≤ p.2
    · rw [if_pos hle]
      refine List.pairwise_cons.mpr ⟨?_, h⟩
      intro b hb
      rcases List.mem_cons.mp hb with rfl | hb'
      · exact hle
      · exact le_trans (hrel b hb') hle
    · rw [if_neg hle]
      refine List.pairwise_cons.mpr ⟨?_, ih hxs⟩
      intro b hb
      rcases mem_insertDesc.mp hb with rfl | hb'
      · exact le_of_lt (lt_of_not_le hle)
      · exact hrel b hb'

theorem pairwise_sortDesc (l : List (String × ℚ)) :
    List.Pairwise (fun a b => b.2 ≤ a.2) (sortDesc l) := by
  induction l with
  | nil => exact List.Pairwise.nil
  | cons x xs ih => exact pairwise_insertDesc ih

theorem mem_insertAsc {k x : String} {l : List String} :
    x ∈ insertAsc k l ↔ x = k ∨ x ∈ l := by
  induction l with
  | nil => simp [insertAsc]
  | cons y ys ih =>
    unfold insertAsc
    by_cases hy : lexLt k.data y.data
    · rw [if_pos hy]
      simp [List.mem_cons, or_comm, or_assoc, or_left_comm]
    · rw [if_neg hy]
      simp only [List.mem_cons, ih]
      tauto

theorem mem_sortAsc {x : String} {l : List String} :
    x ∈ sortAsc l ↔ x ∈ l := by
  induction l with
  | nil => simp [sortAsc]
  | cons y ys ih =>
    unfold sortAsc
    rw [mem_insertAsc]
    simp [ih]

theorem mem_uniqueKeys {x : String} {ks : List String} :
    x ∈ uniqueKeys ks ↔ x ∈ ks := by
  have key : ∀ acc, x ∈ ks.foldl
      (fun acc k => if k ∈ acc then acc else acc ++ [k]) acc ↔ x ∈ acc ∨ x ∈ ks := by
    induction ks with
    | nil => intro acc; simp
    | cons k ks ih =>
      intro acc
      rw [List.foldl_cons, ih]
      by_cases hk : k ∈ acc
      · rw [if_pos hk]
        simp only [List.mem_cons]
        constructor
        · rintro (h | h)
          · exact Or.inl h
          · exact Or.inr (Or.inr h)
        · rintro (h | rfl | h)
          · exact Or.inl h
          · exact Or.inl hk
          · exact Or.inr h
      · rw [if_neg hk]
        simp only [List.mem_append, List.mem_singleton, List.mem_cons]
        tauto
  simpa using key []

theorem mem_summarize {txns : List (String × ℚ)} {p : String × ℚ} :
    p ∈ summarize txns ↔ p.1 ∈ txns.map Prod.fst ∧ p.2 = amountSum txns p.1 := by
  unfold summarize
  rw [mem_sortDesc, List.mem_map]
  constructor
  · rintro ⟨k, hk, rfl⟩
    rw [mem_sortAsc, mem_uniqueKeys] at hk
    exact ⟨hk, rfl⟩
  · rintro ⟨h1, h2⟩
    refine ⟨p.1, ?_, ?_⟩
    · rw [mem_sortAsc, mem_uniqueKeys]
      exact h1
    · obtain ⟨p1, p2⟩ := p
      simp only at h2
      rw [h2]

/-- C8: Aggregation.  `summarize` groups the (Category, Amount) pairs by
category name and sums within each group (a pair belongs to the output
exactly when its name occurs and its amount is that name's total), the
output is ordered by descending total, the spec's concrete example
[(A,10),(B,5),(A,2.5)] yields [(A,12.5),(B,5)], and the empty subset
yields the empty sequence. -/
theorem summarize_spec :
    summarize [("A", 10), ("B", 5), ("A", 5 / 2)] = [("A", 25 / 2), ("B", 5)]
    ∧ summarize ([] : List (String × ℚ)) = []
    ∧ (∀ txns : List (String × ℚ),
        List.Pairwise (fun a b => b.2 ≤ a.2) (summarize txns))
    ∧ (∀ (txns : List (String × ℚ)) (p : String × ℚ),
        p ∈ summarize txns ↔
          p.1 ∈ txns.map Prod.fst ∧ p.2 = amountSum txns p.1) := by
  refine ⟨?_, rfl, ?_, fun txns p => mem_summarize⟩
  · have hf1 : List.filter (fun p => p.1 == "A")
        [("A", (10 : ℚ)), ("B", 5), ("A", 5 / 2)] = [("A", 10), ("A", 5 / 2)] := rfl
    have hf2 : List.filter (fun p => p.1 == "B")
        [("A", (10 : ℚ)), ("B", 5), ("A", 5 / 2)] = [("B", 5)] := rfl
    have h1 : amountSum [("A", (10 : ℚ)), ("B", 5), ("A", 5 / 2)] "A" = 25 / 2 := by
      unfold amountSum
      rw [hf1]
      simp only [List.map_cons, List.map_nil, List.sum_cons, List.sum_nil]
      norm_num
    have h2 : amountSum [("A", (10 : ℚ)), ("B", 5), ("A", 5 / 2)] "B" = 5 := by
      unfold amountSum
      rw [hf2]
      simp only [List.map_cons, List.map_nil, List.sum_cons, List.sum_nil]
      norm_num
    calc summarize [("A", 10), ("B", 5), ("A", 5 / 2)]
        = sortDesc [("A", amountSum [("A", 10), ("B", 5), ("A", 5 / 2)] "A"),
                    ("B", amountSum [("A", 10), ("B", 5), ("A", 5 / 2)] "B")] := rfl
      _ = sortDesc [("A", 25 / 2), ("B", 5)] := by rw [h1, h2]
      _ = insertDesc ("A", 25 / 2) [("B", 5)] := rfl
      _ = [("A", 25 / 2), ("B", 5)] := by
          unfold insertDesc
          rw [if_pos (by norm_num)]
  · intro txns
    unfold summarize
    exact pairwise_sortDesc _

end AutoFinance

